import Mathlib

/-!
Verification development for the Flask-Bauto model-synthesis core
(`flask_bauto/types.py` and `flask_bauto/__init__.py`).

The Python source is shallowly embedded: the type-descriptor registry
(`BauType` and its subclasses), the conversion pipeline
(`BauType.__post_init__` / `BauType.__call__`), the column synthesizer
(`Bauhaus.create_db_column`), the per-model synthesis driver
(`AutoBlueprint._set_bauprint`, `register_models`, `register_forms`) and
the `File.py2db` storage transform.  Python dictionaries are embedded as
association lists with insert-or-replace-in-place semantics; Python
exceptions are embedded as `Except` errors.
-/

namespace FlaskBauto

/- ### Python string primitives, embedded structurally over `String.data` -/

/-- Python `str.endswith(suffix)`. -/
def pyEndsWith (s suf : String) : Bool :=
  List.isSuffixOf suf.data s.data

/-- Python `str.startswith(p)`. -/
def pyStartsWith (s p : String) : Bool :=
  List.isPrefixOf p.data s.data

/-- Python `s[:-n]` for a string of length at least `n`. -/
def pyDropRight (s : String) (n : Nat) : String :=
  ⟨s.data.take (s.data.length - n)⟩

/-- Python `str.lower()`. -/
def pyLower (s : String) : String :=
  ⟨s.data.map Char.toLower⟩

/-- Python `str.capitalize()`: first character upper-cased, rest lower-cased. -/
def pyCapitalize (s : String) : String :=
  match s.data with
  | [] => ⟨[]⟩
  | c :: cs => ⟨Char.toUpper c :: cs.map Char.toLower⟩

/-- Python `str.split(sep)` for a single-character separator. -/
def splitChar (sep : Char) : List Char → List (List Char)
  | [] => [[]]
  | c :: cs =>
    if c = sep then [] :: splitChar sep cs
    else
      match splitChar sep cs with
      | [] => [[c]]
      | w :: ws => (c :: w) :: ws

/-- Python `str.replace(a, b)` for single characters. -/
def pyReplaceChar (s : String) (a b : Char) : String :=
  ⟨s.data.map (fun c => if c = a then b else c)⟩

/-- `AutoBlueprint.snake_to_camel` (default `lowerCamelCase=False` path):
capitalize each `_`-separated component and concatenate. -/
def snakeToCamel (s : String) : String :=
  ⟨(splitChar '_' s.data).foldr (fun w acc => (pyCapitalize ⟨w⟩).data ++ acc) []⟩

/- ### Python dict primitives over association lists -/

/-- First-match lookup in an association list (Python `d[k]` / `k in d`). -/
def alookup {α : Type} : List (String × α) → String → Option α
  | [], _ => none
  | (k, v) :: rest, key => if k = key then some v else alookup rest key

/-- Python dict assignment `d[k] = v`: replace in place when the key exists,
append otherwise. -/
def dictInsert {α : Type} : List (String × α) → String → α → List (String × α)
  | [], k, v => [(k, v)]
  | p :: rest, k, v =>
    if p.1 = k then (k, v) :: rest else p :: dictInsert rest k v

/- ### Value model -/

/-- Runtime Python values appearing as field defaults or converted items. -/
inductive Value where
  | vint (n : Int)
  | vstr (s : String)
  deriving DecidableEq, Repr

/-- Python truthiness of a `Value`. -/
def Value.truthy : Value → Bool
  | .vint n => decide (n ≠ 0)
  | .vstr s => decide (s ≠ "")

/-- A dataclass field default as seen through `AutoBlueprint._get_default`:
either the `dataclasses.MISSING` sentinel, the Python `None` object, or a
concrete value. -/
inductive PyDefault where
  | missing
  | pynone
  | val (v : Value)
  deriving DecidableEq, Repr

/- ### Declared types and the descriptor registry (`flask_bauto/types.py`) -/

/-- Metadata dict attached by `typing.Annotated` (string keys and values,
as used by the `storage_location` hint). -/
abbrev Meta := List (String × String)

/-- A declared Python annotation, as inspected by `BauType._get_bautype`:
primitives, the raw `list` class, the parameterized `list[...]` generic,
`Annotated[...]` wrappers, and (for the subclass escape hatch) a direct
`BauType` subclass. -/
inductive PyType where
  | int
  | str
  | float
  | bool
  | datetime
  | date
  | time
  | path
  | dict
  | callable
  | listRaw
  | listOf (t : PyType)
  | annotated (base : PyType) (meta : Meta)
  | bauSubclass
  deriving DecidableEq, Repr

/-- The registered `BauType` subclasses. -/
inductive DescKind where
  | stringT
  | integerT
  | floatT
  | dateTimeT
  | dateT
  | timeT
  | fileT
  | jsonT
  | taskT
  deriving DecidableEq, Repr

/-- The `py_type` class attribute of each registered descriptor. -/
def DescKind.pyType : DescKind → PyType
  | .stringT => .str
  | .integerT => .int
  | .floatT => .float
  | .dateTimeT => .datetime
  | .dateT => .date
  | .timeT => .time
  | .fileT => .path
  | .jsonT => .dict
  | .taskT => .callable

/-- SQLAlchemy storage types used as `db_type` class attributes. -/
inductive DbType where
  | saString
  | saInteger
  | saFloat
  | saDateTime
  | saDate
  | saTime
  | saJSON
  deriving DecidableEq, Repr

/-- The `db_type` class attribute of each registered descriptor. -/
def DescKind.dbType : DescKind → DbType
  | .stringT => .saString
  | .integerT => .saInteger
  | .floatT => .saFloat
  | .dateTimeT => .saDateTime
  | .dateT => .saDate
  | .timeT => .saTime
  | .fileT => .saJSON
  | .jsonT => .saJSON
  | .taskT => .saJSON

/-- WTForms widget kinds used as `ux_type` class attributes. -/
inductive UXType where
  | stringField
  | integerField
  | floatField
  | dateTimeField
  | dateField
  | timeField
  | fileField
  | formField
  | textAreaField
  deriving DecidableEq, Repr

/-- The `ux_type` class attribute of each registered descriptor. -/
def DescKind.uxType : DescKind → UXType
  | .stringT => .stringField
  | .integerT => .integerField
  | .floatT => .floatField
  | .dateTimeT => .dateTimeField
  | .dateT => .dateField
  | .timeT => .timeField
  | .fileT => .fileField
  | .jsonT => .formField
  | .taskT => .textAreaField

/-- `BauType._get_bautypes()`: the subclass-discovery registry, keyed by
`py_type`. -/
def registryLookup : PyType → Option DescKind
  | .str => some .stringT
  | .int => some .integerT
  | .float => some .floatT
  | .datetime => some .dateTimeT
  | .date => some .dateT
  | .time => some .timeT
  | .path => some .fileT
  | .dict => some .jsonT
  | .callable => some .taskT
  | _ => none

/-- The `__origin__` attribute of a parameterized annotation: `list` for
`list[...]`, the wrapped base type for `Annotated[...]`, absent otherwise. -/
def originOf : PyType → Option PyType
  | .listOf _ => some .listRaw
  | .annotated base _ => some base
  | _ => none

/-- Errors raised during synthesis, embedding the Python exceptions. -/
inductive SynthErr where
  | keyErrorType
  | typeErrorCall
  | attributeError
  | keyErrorDict
  deriving DecidableEq, Repr

/-- The result of `BauType._get_bautype`: the descriptor class itself, an
instance of it parameterized with a `py_type` annotation, a `BauType`
subclass passed through unchanged, or an instance of such a subclass. -/
inductive Resolved where
  | cls (d : DescKind)
  | inst (d : DescKind) (pyT : PyType)
  | subCls
  | instSub (pyT : PyType)
  deriving DecidableEq, Repr

/-- The base-type branch of `BauType._get_bautype`: the `issubclass` check
followed by registry lookup (a missing key raises `KeyError`). -/
def getBautypeFlat (t : PyType) : Except SynthErr Resolved :=
  if t = PyType.bauSubclass then .ok .subCls
  else
    match registryLookup t with
    | some d => .ok (.cls d)
    | none => .error .keyErrorType

/-- `BauType._get_bautype`: an annotation with `__origin__` resolves the
origin and instantiates the resulting class with `py_type` set to the
original annotation (calling an already-instantiated result raises
`TypeError`); any other annotation goes through the subclass check and the
registry. -/
def getBautype : PyType → Except SynthErr Resolved
  | .annotated base meta =>
    match getBautype base with
    | .ok (.cls d) => .ok (.inst d (.annotated base meta))
    | .ok .subCls => .ok (.instSub (.annotated base meta))
    | .ok _ => .error .typeErrorCall
    | .error e => .error e
  | .listOf t =>
    match getBautypeFlat .listRaw with
    | .ok (.cls d) => .ok (.inst d (.listOf t))
    | .ok .subCls => .ok (.instSub (.listOf t))
    | .ok _ => .error .typeErrorCall
    | .error e => .error e
  | t => getBautypeFlat t

/-- The `py_type` visible on a resolution result (`None` for an unknown
user subclass). -/
def Resolved.pyTypeOf : Resolved → Option PyType
  | .cls d => some d.pyType
  | .inst _ t => some t
  | .subCls => none
  | .instSub t => some t

/-- The `db_type` visible on a resolution result. -/
def Resolved.dbTypeOf : Resolved → Option DbType
  | .cls d => some d.dbType
  | .inst d _ => some d.dbType
  | .subCls => none
  | .instSub _ => none

/-- The `ux_type` visible on a resolution result. -/
def Resolved.uxTypeOf : Resolved → Option UXType
  | .cls d => some d.uxType
  | .inst d _ => some d.uxType
  | .subCls => none
  | .instSub _ => none

/-- The metadata dict of the annotation carried by the descriptor's
`py_type` slot (`BauType.metadata`). -/
def PyType.metaData : PyType → Meta
  | .annotated _ m => m
  | _ => []

/-- `BauType.metadata` on a resolution result. -/
def Resolved.metaOf : Resolved → Meta
  | .inst _ t => t.metaData
  | .instSub t => t.metaData
  | .cls _ => []
  | .subCls => []

/- ### The column synthesizer (`Bauhaus.create_db_column`) -/

/-- The `Bauhaus` column descriptor: field name, owning model name, the
resolved type descriptor, and the field default. -/
structure Bauhaus where
  name : String
  model : String
  type : Resolved
  default : PyDefault
  deriving DecidableEq, Repr

/-- A synthesized SQLAlchemy column: the implicit primary key, a
foreign-key column, a plain column, or a forensics bookkeeping column. -/
inductive DbColumn where
  | pk
  | fk (name : String) (target : String) (nullable : Bool)
  | plain (name : String) (dbT : Option DbType) (default : PyDefault) (nullable : Bool)
  | userIdCol
  | modDatetimeCol
  deriving DecidableEq, Repr

/-- The column's name. -/
def DbColumn.colName : DbColumn → String
  | .pk => "id"
  | .fk n _ _ => n
  | .plain n _ _ _ => n
  | .userIdCol => "_user_id"
  | .modDatetimeCol => "_mod_datetime"

/-- A value stored in `model_properties`: a `relationship(...)` descriptor
(with optional `back_populates`) or a truthy field default used verbatim. -/
inductive ModelProp where
  | rel (target : String) (backPopulates : Option String)
  | defaultVal (v : Value)
  deriving DecidableEq, Repr

/-- The plain-column branch passes `default = None if self.default is
MISSING else self.default`. -/
def colDefault : PyDefault → PyDefault
  | .missing => .pynone
  | d => d

/-- `Bauhaus.create_db_column`: a name ending in `_id` whose stripped
prefix names a model in the shared namespace and whose descriptor's
`py_type` is `int` yields a foreign-key column (and registers a
relationship property keyed by the stripped name); everything else yields
a plain column of the descriptor's `db_type`.  Nullability is `True`
exactly when the default is `None`. -/
def create_db_column (b : Bauhaus) (allModels : List String) :
    DbColumn × Option (String × ModelProp) :=
  if pyEndsWith b.name "_id" = true ∧ pyDropRight b.name 3 ∈ allModels ∧
      b.type.pyTypeOf = some PyType.int then
    (DbColumn.fk b.name (pyDropRight b.name 3 ++ ".id")
        (decide (b.default = PyDefault.pynone)),
     some (pyDropRight b.name 3,
       ModelProp.rel (snakeToCamel (pyDropRight b.name 3)) none))
  else
    (DbColumn.plain b.name b.type.dbTypeOf (colDefault b.default)
        (decide (b.default = PyDefault.pynone)),
     none)

/- ### Per-model synthesis (`AutoBlueprint`) -/

/-- One annotated dataclass field: name, declared type, default (through
`_get_default`). -/
structure FieldDecl where
  name : String
  type : PyType
  default : PyDefault
  deriving DecidableEq, Repr

/-- An inner dataclass model: its ordered field declarations. -/
structure ModelDecl where
  fields : List FieldDecl
  deriving DecidableEq, Repr

/-- The comprehension filter of `_set_bauprint`:
`if type != list[int] or name.startswith('_')`. -/
def keepsField (f : FieldDecl) : Bool :=
  decide (f.type ≠ PyType.listOf PyType.int) || pyStartsWith f.name "_"

/-- `AutoBlueprint._set_bauprint`: build the ordered `__bauprint__` dict,
resolving each kept field's type (a failed resolution propagates as the
raised exception). -/
def bauprintFields (modelName : String) :
    List FieldDecl → Except SynthErr (List (String × Bauhaus))
  | [] => .ok []
  | f :: fs =>
    if keepsField f then
      match getBautype f.type with
      | .error e => .error e
      | .ok r =>
        match bauprintFields modelName fs with
        | .error e => .error e
        | .ok rest => .ok ((f.name, Bauhaus.mk f.name modelName r f.default) :: rest)
    else bauprintFields modelName fs

/-- The `columns` comprehension of `register_models`, also accumulating the
relationship properties inserted by the foreign-key branch of
`create_db_column` into `model_properties`. -/
def capGo (allModels : List String)
    (acc : List (String × DbColumn) × List (String × ModelProp)) :
    List (String × Bauhaus) →
      List (String × DbColumn) × List (String × ModelProp)
  | [] => acc
  | (n, b) :: rest =>
    let r := create_db_column b allModels
    capGo allModels
      (dictInsert acc.1 n r.1,
       match r.2 with
       | some kv => dictInsert acc.2 kv.1 kv.2
       | none => acc.2)
      rest

/-- The one-to-many loop of `register_models`: for each `list[int]` field,
`model_properties[name][colname+'_list'] = getattr(dm, colname) or
relationship(snake_to_camel(colname), back_populates=name.lower())`.
A field with no class attribute (no default) raises `AttributeError`. -/
def one2many (modelName : String) (props : List (String × ModelProp)) :
    List FieldDecl → Except SynthErr (List (String × ModelProp))
  | [] => .ok props
  | f :: fs =>
    if f.type = PyType.listOf PyType.int then
      match f.default with
      | .missing => .error .attributeError
      | .pynone =>
        one2many modelName
          (dictInsert props (f.name ++ "_list")
            (ModelProp.rel (snakeToCamel f.name) (some (pyLower modelName)))) fs
      | .val v =>
        one2many modelName
          (dictInsert props (f.name ++ "_list")
            (if v.truthy then ModelProp.defaultVal v
             else ModelProp.rel (snakeToCamel f.name) (some (pyLower modelName)))) fs
    else one2many modelName props fs

/-- The per-model output of `register_models`: the SQLAlchemy table's
column list (primary key first) and the model's property dict. -/
structure RegisteredModel where
  tableColumns : List DbColumn
  props : List (String × ModelProp)
  deriving DecidableEq, Repr

/-- One iteration of `register_models`: synthesize the columns dict, add
the forensics bookkeeping columns when enabled, create the table with the
implicit `id` primary key, then wire the one-to-many relationships. -/
def register_model (allModels : List String) (forens : Bool)
    (modelName : String) (m : ModelDecl) (bp : List (String × Bauhaus)) :
    Except SynthErr RegisteredModel :=
  let cp := capGo allModels ([], []) bp
  let cols :=
    if forens then
      dictInsert (dictInsert cp.1 "_user_id" DbColumn.userIdCol)
        "_mod_datetime" DbColumn.modDatetimeCol
    else cp.1
  match one2many modelName cp.2 m.fields with
  | .error e => .error e
  | .ok props => .ok ⟨DbColumn.pk :: cols.map (fun p => p.2), props⟩

/- ### Form synthesis (`AutoBlueprint.register_forms`) -/

/-- WTForms validators attached by the form synthesizer. -/
inductive Validator where
  | optionalV
  | inputRequiredV
  deriving DecidableEq, Repr

/-- The widget of a synthesized form field: an FK choice field bound to a
snapshot of the target model name, a primitive widget from the
descriptor's `ux_type`, or the trailing submit button. -/
inductive UXKind where
  | select (targetModel : String)
  | widget (u : Option UXType)
  | submitBtn
  deriving DecidableEq, Repr

/-- One synthesized form field: name, label, widget, validators, and the
`default=` argument passed to the WTForms constructor (`.missing` when the
constructor receives no default argument at all; the primitive branch
passes `None` for a `MISSING` field default). -/
structure UXFieldSpec where
  name : String
  label : String
  kind : UXKind
  validators : List Validator
  default : PyDefault
  deriving DecidableEq, Repr

/-- The `default=None if default_value is MISSING else default_value`
conversion of the primitive form-field branch. -/
def pyOrNone : PyDefault → PyDefault
  | .missing => .pynone
  | d => d

/-- The loop body of `register_forms` for one field: read the field's
default from `__bauprint__`, then either build a `SelectField` (for a
`_id` name whose stripped prefix is a known model) or a primitive widget
with `Optional()`/`InputRequired()` validators. -/
def make_form_field (allModels : List String) (bp : List (String × Bauhaus))
    (f : FieldDecl) : Except SynthErr UXFieldSpec :=
  match alookup bp f.name with
  | none => .error .keyErrorDict
  | some bh =>
    if pyEndsWith f.name "_id" = true ∧ pyDropRight f.name 3 ∈ allModels then
      .ok ⟨f.name, pyCapitalize (pyReplaceChar f.name '_' ' '),
           UXKind.select (pyDropRight f.name 3), [], .missing⟩
    else
      match getBautype f.type with
      | .error e => .error e
      | .ok r =>
        .ok ⟨f.name, pyCapitalize (pyReplaceChar f.name '_' ' '),
             UXKind.widget r.uxTypeOf,
             (if f.type = PyType.bool then []
              else [if bh.default = PyDefault.pynone then Validator.optionalV
                    else Validator.inputRequiredV]),
             pyOrNone bh.default⟩

/-- The field loop of `register_forms`, skipping `list[int]` fields. -/
def formFields (allModels : List String) (bp : List (String × Bauhaus)) :
    List FieldDecl → Except SynthErr (List UXFieldSpec)
  | [] => .ok []
  | f :: fs =>
    if f.type = PyType.listOf PyType.int then formFields allModels bp fs
    else
      match make_form_field allModels bp f with
      | .error e => .error e
      | .ok s =>
        match formFields allModels bp fs with
        | .error e => .error e
        | .ok rest => .ok (s :: rest)

/-- The trailing `SubmitField` attached after all data fields. -/
def submitSpec (modelName : String) : UXFieldSpec :=
  ⟨"submit", "Submit \"" ++ modelName ++ "\"", UXKind.submitBtn, [], .missing⟩

/-- One iteration of `register_forms` for a model. -/
def register_form (allModels : List String) (modelName : String)
    (m : ModelDecl) (bp : List (String × Bauhaus)) :
    Except SynthErr (List UXFieldSpec) :=
  match formFields allModels bp m.fields with
  | .error e => .error e
  | .ok specs => .ok (specs ++ [submitSpec modelName])

/-- The combined per-model synthesis output. -/
structure SynthOut where
  rm : RegisteredModel
  form : List UXFieldSpec
  deriving DecidableEq, Repr

/-- The per-model slice of `AutoBlueprint.__init__`'s synthesis sequence:
`_set_bauprint`, then `register_models`, then `register_forms`; any raised
exception aborts startup. -/
def synth_model (allModels : List String) (forens : Bool)
    (modelName : String) (m : ModelDecl) : Except SynthErr SynthOut :=
  match bauprintFields modelName m.fields with
  | .error e => .error e
  | .ok bp =>
    match register_model allModels forens modelName m bp with
    | .error e => .error e
    | .ok rm =>
      match register_form allModels modelName m bp with
      | .error e => .error e
      | .ok form => .ok ⟨rm, form⟩

/- ### The conversion pipeline (`BauType.__post_init__` / `__call__`) -/

/-- The three representation slots of a descriptor instance. -/
structure ItemTriple where
  py_item : Option Value
  db_item : Option Value
  ux_item : Option Value
  deriving Repr

/-- A descriptor instance as a value bundle: the three slots plus the four
transform methods.  `none` for a transform embeds the base-class `False`
placeholder (`py2db = False` etc.); calling it raises `TypeError`. -/
structure BauInst where
  items : ItemTriple
  py2db : Option (ItemTriple → Value)
  py2ux : Option (ItemTriple → Value)
  db2py : Option (ItemTriple → Value)
  ux2py : Option (ItemTriple → Value)

/-- The error raised when a `False` transform placeholder is invoked
(`TypeError: 'bool' object is not callable`). -/
inductive PropError where
  | notCallable
  deriving DecidableEq, Repr

/-- Invoke a transform attribute: calling the `False` placeholder raises. -/
def callTransform (t : Option (ItemTriple → Value)) (it : ItemTriple) :
    Except PropError Value :=
  match t with
  | none => .error .notCallable
  | some f => .ok (f it)

/-- `BauType.__post_init__`: propagate from whichever slot is populated,
computing only the slots that are still `None`. -/
def post_init (s : BauInst) : Except PropError BauInst :=
  match s.items.py_item with
  | some _ =>
    match s.items.db_item with
    | none =>
      match callTransform s.py2db s.items with
      | .error e => .error e
      | .ok v =>
        let s1 : BauInst := { s with items := { s.items with db_item := some v } }
        match s1.items.ux_item with
        | none =>
          match callTransform s1.py2ux s1.items with
          | .error e => .error e
          | .ok w => .ok { s1 with items := { s1.items with ux_item := some w } }
        | some _ => .ok s1
    | some _ =>
      match s.items.ux_item with
      | none =>
        match callTransform s.py2ux s.items with
        | .error e => .error e
        | .ok w => .ok { s with items := { s.items with ux_item := some w } }
      | some _ => .ok s
  | none =>
    match s.items.db_item with
    | some _ =>
      match callTransform s.db2py s.items with
      | .error e => .error e
      | .ok v =>
        let s1 : BauInst := { s with items := { s.items with py_item := some v } }
        match s1.items.ux_item with
        | none =>
          match callTransform s1.py2ux s1.items with
          | .error e => .error e
          | .ok w => .ok { s1 with items := { s1.items with ux_item := some w } }
        | some _ => .ok s1
    | none =>
      match s.items.ux_item with
      | some _ =>
        match callTransform s.ux2py s.items with
        | .error e => .error e
        | .ok v =>
          let s1 : BauInst := { s with items := { s.items with py_item := some v } }
          match callTransform s1.py2db s1.items with
          | .error e => .error e
          | .ok w => .ok { s1 with items := { s1.items with db_item := some w } }
      | none => .ok s

/-- `BauType.__call__`: store whichever items were provided, then rerun
`__post_init__` and return the instance. -/
def bauCall (s : BauInst) (py db ux : Option Value) : Except PropError BauInst :=
  let s := match py with
    | some v => { s with items := { s.items with py_item := some v } }
    | none => s
  let s := match db with
    | some v => { s with items := { s.items with db_item := some v } }
    | none => s
  let s := match ux with
    | some v => { s with items := { s.items with ux_item := some v } }
    | none => s
  post_init s

/- ### The `File.py2db` storage transform -/

/-- The ambient collaborators of `File.py2db`: the Flask instance path,
the current timestamp (already formatted), `werkzeug`'s
`secure_filename`, and base64 decoding. -/
structure FileEnv where
  instancePath : String
  now : String
  secure : String → String
  b64decode : String → String

/-- The result of `File.py2db`: the (possibly mutated) internal dict and
the list of file writes performed, as `(path, bytes)` pairs. -/
structure FileWriteResult where
  item : List (String × String)
  writes : List (String × String)
  deriving DecidableEq, Repr

/-- `File.py2db`: when the annotation metadata has a `storage_location`
and the internal dict has a `content` entry, write the base64-decoded
content to `instance_path/storage_location/<timestamp>-<secured name>`,
pop `content` and record `content_location`; otherwise return the dict
unchanged.  A dict with `content` but no `filename` raises `KeyError`. -/
def file_py2db (env : FileEnv) (meta : Meta) (item : List (String × String)) :
    Except SynthErr FileWriteResult :=
  match alookup meta "storage_location", alookup item "content" with
  | some sl, some content =>
    match alookup item "filename" with
    | none => .error .keyErrorDict
    | some fn =>
      let filename := env.now ++ "-" ++ env.secure fn
      let filepath := env.instancePath ++ "/" ++ sl ++ "/" ++ filename
      .ok ⟨dictInsert (item.filter (fun p => decide (p.1 ≠ "content")))
             "content_location" filepath,
           [(filepath, env.b64decode content)]⟩
  | _, _ => .ok ⟨item, []⟩



/- ### Dictionary lemmas -/

theorem alookup_dictInsert_self {α : Type} (l : List (String × α)) (k : String) (v : α) :
    alookup (dictInsert l k v) k = some v := by
  induction l with
  | nil => simp [dictInsert, alookup]
  | cons p rest ih =>
    by_cases h : p.1 = k
    · simp [dictInsert, h, alookup]
    · simp [dictInsert, h, alookup, ih]

theorem alookup_dictInsert_ne {α : Type} (l : List (String × α)) (k key : String) (v : α)
    (h : key ≠ k) : alookup (dictInsert l k v) key = alookup l key := by
  induction l with
  | nil =>
    simp only [dictInsert, alookup]
    rw [if_neg (fun hh : k = key => h hh.symm)]
  | cons p rest ih =>
    rcases p with ⟨pk, pv⟩
    by_cases hp : pk = k
    · have h1 : ¬ k = key := fun hh => h hh.symm
      have h2 : ¬ pk = key := fun hh => h (hh ▸ hp)
      rw [show dictInsert ((pk, pv) :: rest) k v = (k, v) :: rest by
            simp [dictInsert, hp]]
      simp only [alookup]
      rw [if_neg h1, if_neg h2]
    · rw [show dictInsert ((pk, pv) :: rest) k v = (pk, pv) :: dictInsert rest k v by
            simp [dictInsert, hp]]
      simp only [alookup, ih]

theorem keys_dictInsert_mem {α : Type} (l : List (String × α)) (k x : String) (v : α)
    (h : x ∈ (dictInsert l k v).map Prod.fst) : x ∈ l.map Prod.fst ∨ x = k := by
  induction l with
  | nil => simp [dictInsert] at h; simp [h]
  | cons p rest ih =>
    by_cases hp : p.1 = k
    · simp only [dictInsert, if_pos hp, List.map_cons, List.mem_cons] at h
      rcases h with h | h
      · right; exact h
      · left; simp [List.mem_cons, h]
    · simp only [dictInsert, if_neg hp, List.map_cons, List.mem_cons] at h
      rcases h with h | h
      · left; simp [h]
      · rcases ih h with h2 | h2
        · left; simp [List.mem_cons, h2]
        · right; exact h2

theorem dictInsert_not_mem {α : Type} (l : List (String × α)) (k : String) (v : α)
    (h : k ∉ l.map Prod.fst) : dictInsert l k v = l ++ [(k, v)] := by
  induction l with
  | nil => simp [dictInsert]
  | cons p rest ih =>
    simp only [List.map_cons, List.mem_cons] at h
    push_neg at h
    simp only [dictInsert, if_neg (fun hh : p.1 = k => h.1 hh.symm)]
    rw [ih h.2]
    simp

theorem keys_dictInsert_of_mem {α : Type} (l : List (String × α)) (k : String) (v : α)
    (h : k ∈ l.map Prod.fst) : (dictInsert l k v).map Prod.fst = l.map Prod.fst := by
  induction l with
  | nil => simp at h
  | cons p rest ih =>
    by_cases hp : p.1 = k
    · simp [dictInsert, hp]
    · simp only [List.map_cons, List.mem_cons] at h
      rcases h with h | h
      · exact absurd h.symm hp
      · simp [dictInsert, hp, ih h]

theorem alookup_filter_ne {α : Type} (l : List (String × α)) (k : String) :
    alookup (l.filter (fun p => decide (p.1 ≠ k))) k = none := by
  induction l with
  | nil => simp [alookup]
  | cons p rest ih =>
    by_cases hp : p.1 = k
    · simpa [List.filter, hp] using ih
    · simpa [List.filter, hp, alookup] using ih

theorem alookup_filter_other {α : Type} (l : List (String × α)) (k key : String)
    (h : key ≠ k) : alookup (l.filter (fun p => decide (p.1 ≠ k))) key = alookup l key := by
  induction l with
  | nil => simp
  | cons p rest ih =>
    rcases p with ⟨pk, pv⟩
    by_cases hp : pk = k
    · have h2 : ¬ pk = key := fun hh => h (hh ▸ hp)
      rw [show List.filter (fun p => decide (p.1 ≠ k)) ((pk, pv) :: rest) =
            List.filter (fun p => decide (p.1 ≠ k)) rest by
          simp [List.filter_cons, hp]]
      rw [ih]
      simp only [alookup]
      rw [if_neg h2]
    · rw [show List.filter (fun p => decide (p.1 ≠ k)) ((pk, pv) :: rest) =
            (pk, pv) :: List.filter (fun p => decide (p.1 ≠ k)) rest by
          simp [List.filter_cons, hp]]
      simp only [alookup, ih]

/- ### Synthesis-pipeline lemmas -/

/-- A field whose declared type is not the `list[int]` sentinel. -/
def nonSentinel (f : FieldDecl) : Bool :=
  decide (f.type ≠ PyType.listOf PyType.int)

theorem getBautype_listOf (t : PyType) :
    getBautype (PyType.listOf t) = .error .keyErrorType := rfl

theorem getBautype_bool : getBautype PyType.bool = .error .keyErrorType := rfl

theorem strAppend_cancel (a b c : String) (h : a ++ c = b ++ c) : a = b := by
  rcases a with ⟨la⟩
  rcases b with ⟨lb⟩
  rcases c with ⟨lc⟩
  have h2 : la ++ lc = lb ++ lc := congrArg String.data h
  exact congrArg String.mk (List.append_cancel_right h2)

theorem bp_tail (mn : String) (f : FieldDecl) (fs : List FieldDecl)
    (bp : List (String × Bauhaus)) (h : bauprintFields mn (f :: fs) = .ok bp) :
    ∃ bp2, bauprintFields mn fs = .ok bp2 := by
  by_cases hk : keepsField f = true
  · simp only [bauprintFields, if_pos hk] at h
    cases hg : getBautype f.type with
    | error e => rw [hg] at h; cases h
    | ok r =>
      rw [hg] at h
      cases hr : bauprintFields mn fs with
      | error e => rw [hr] at h; cases h
      | ok rest => exact ⟨rest, rfl⟩
  · simp only [bauprintFields, if_neg hk] at h
    exact ⟨bp, h⟩

theorem bp_head_resolves (mn : String) (f : FieldDecl) (fs : List FieldDecl)
    (bp : List (String × Bauhaus)) (h : bauprintFields mn (f :: fs) = .ok bp)
    (hk : keepsField f = true) : ∃ r, getBautype f.type = .ok r := by
  simp only [bauprintFields, if_pos hk] at h
  cases hg : getBautype f.type with
  | error e => rw [hg] at h; cases h
  | ok r => exact ⟨r, rfl⟩

theorem bp_cons_ok (mn : String) (f : FieldDecl) (fs : List FieldDecl)
    (bp : List (String × Bauhaus)) (h : bauprintFields mn (f :: fs) = .ok bp)
    (hk : keepsField f = true) :
    ∃ r rest, getBautype f.type = .ok r ∧ bauprintFields mn fs = .ok rest ∧
      bp = (f.name, Bauhaus.mk f.name mn r f.default) :: rest := by
  simp only [bauprintFields, if_pos hk] at h
  cases hg : getBautype f.type with
  | error e => rw [hg] at h; cases h
  | ok r =>
    rw [hg] at h
    cases hr : bauprintFields mn fs with
    | error e => rw [hr] at h; cases h
    | ok rest =>
      rw [hr] at h
      simp only [Except.ok.injEq] at h
      exact ⟨r, rest, rfl, rfl, h.symm⟩

theorem bp_no_sentinel (mn : String) (fields : List FieldDecl)
    (bp : List (String × Bauhaus)) (h : bauprintFields mn fields = .ok bp) :
    ∀ f ∈ fields, f.type = PyType.listOf PyType.int →
      pyStartsWith f.name "_" = false := by
  induction fields generalizing bp with
  | nil => intro f hf; cases hf
  | cons g gs ih =>
    intro f hf ht
    rcases List.mem_cons.mp hf with hf | hf
    · subst hf
      by_cases hs : pyStartsWith f.name "_" = true
      · exfalso
        have hk : keepsField f = true := by
          simp [keepsField, hs]
        obtain ⟨r, hr⟩ := bp_head_resolves mn f gs bp h hk
        rw [ht, getBautype_listOf] at hr
        cases hr
      · exact Bool.not_eq_true _ ▸ (Bool.eq_false_iff.mpr hs)
    · obtain ⟨bp2, h2⟩ := bp_tail mn g gs bp h
      exact ih bp2 h2 f hf ht

theorem bp_filter_eq (mn : String) (fields : List FieldDecl)
    (bp : List (String × Bauhaus)) (h : bauprintFields mn fields = .ok bp) :
    fields.filter keepsField = fields.filter nonSentinel := by
  induction fields generalizing bp with
  | nil => rfl
  | cons f fs ih =>
    obtain ⟨bp2, h2⟩ := bp_tail mn f fs bp h
    by_cases hk : keepsField f = true
    · have hns : nonSentinel f = true := by
        by_contra hcon
        have ht : f.type = PyType.listOf PyType.int := by
          by_contra ht2
          exact hcon (by simp [nonSentinel, ht2])
        obtain ⟨r, hr⟩ := bp_head_resolves mn f fs bp h hk
        rw [ht, getBautype_listOf] at hr
        cases hr
      rw [List.filter_cons_of_pos hk, List.filter_cons_of_pos hns, ih bp2 h2]
    · have hns : ¬ nonSentinel f = true := by
        intro hcon
        exact hk (by simp [keepsField, nonSentinel] at hcon ⊢; simp [hcon])
      rw [List.filter_cons_of_neg hk, List.filter_cons_of_neg hns, ih bp2 h2]

theorem bp_keys (mn : String) (fields : List FieldDecl)
    (bp : List (String × Bauhaus)) (h : bauprintFields mn fields = .ok bp) :
    bp.map Prod.fst = (fields.filter keepsField).map FieldDecl.name := by
  induction fields generalizing bp with
  | nil =>
    simp only [bauprintFields, Except.ok.injEq] at h
    rw [← h]
    rfl
  | cons f fs ih =>
    by_cases hk : keepsField f = true
    · obtain ⟨r, rest, _, hrest, hbp⟩ := bp_cons_ok mn f fs bp h hk
      rw [hbp, List.filter_cons_of_pos hk]
      simp [ih rest hrest]
    · simp only [bauprintFields, if_neg hk] at h
      rw [List.filter_cons_of_neg hk]
      exact ih bp h

theorem capGo_cols (models : List String) (bp : List (String × Bauhaus))
    (acc : List (String × DbColumn) × List (String × ModelProp))
    (h1 : ∀ k ∈ bp.map Prod.fst, k ∉ acc.1.map Prod.fst)
    (h2 : (bp.map Prod.fst).Nodup) :
    (capGo models acc bp).1 =
      acc.1 ++ bp.map (fun p => (p.1, (create_db_column p.2 models).1)) := by
  induction bp generalizing acc with
  | nil => simp [capGo]
  | cons p rest ih =>
    rcases p with ⟨n, b⟩
    simp only [capGo]
    have hn : n ∉ acc.1.map Prod.fst := h1 n (by simp)
    rw [dictInsert_not_mem acc.1 n _ hn]
    rw [ih]
    · simp
    · intro k hk
      simp only [List.map_append, List.mem_append]
      push_neg
      constructor
      · exact h1 k (by simp [hk])
      · simp only [List.map_cons, List.map_nil, List.mem_singleton]
        intro hkn
        subst hkn
        have := (List.nodup_cons.mp h2).1
        exact this hk
    · exact (List.nodup_cons.mp h2).2

theorem colName_create (b : Bauhaus) (models : List String) :
    ((create_db_column b models).1).colName = b.name := by
  unfold create_db_column
  by_cases h : pyEndsWith b.name "_id" = true ∧ pyDropRight b.name 3 ∈ models ∧
      b.type.pyTypeOf = some PyType.int
  · rw [if_pos h]; rfl
  · rw [if_neg h]; rfl

theorem o2m_ne_preserved (mn : String) (fs : List FieldDecl)
    (props props' : List (String × ModelProp)) (key : String) (v : ModelProp)
    (h : one2many mn props fs = .ok props')
    (hv : alookup props key = some v)
    (hne : ∀ g ∈ fs, ¬ (g.name ++ "_list") = key) :
    alookup props' key = some v := by
  induction fs generalizing props with
  | nil =>
    simp only [one2many, Except.ok.injEq] at h
    rw [← h]
    exact hv
  | cons g gs ih =>
    have hkey : key ≠ g.name ++ "_list" := fun hh => hne g (by simp) hh.symm
    by_cases hg : g.type = PyType.listOf PyType.int
    · simp only [one2many, if_pos hg] at h
      cases hd : g.default with
      | missing => rw [hd] at h; cases h
      | pynone =>
        rw [hd] at h
        refine ih _ h ?_ ?_
        · rw [alookup_dictInsert_ne _ _ _ _ hkey]
          exact hv
        · intro g2 hg2; exact hne g2 (by simp [hg2])
      | val w =>
        rw [hd] at h
        refine ih _ h ?_ ?_
        · rw [alookup_dictInsert_ne _ _ _ _ hkey]
          exact hv
        · intro g2 hg2; exact hne g2 (by simp [hg2])
    · simp only [one2many, if_neg hg] at h
      refine ih _ h hv ?_
      intro g2 hg2; exact hne g2 (by simp [hg2])

theorem o2m_lookup (mn : String) (fs : List FieldDecl)
    (props props' : List (String × ModelProp)) (f : FieldDecl)
    (h : one2many mn props fs = .ok props')
    (hf : f ∈ fs) (ht : f.type = PyType.listOf PyType.int)
    (hd : f.default = PyDefault.pynone)
    (hnd : (fs.map FieldDecl.name).Nodup) :
    alookup props' (f.name ++ "_list") =
      some (ModelProp.rel (snakeToCamel f.name) (some (pyLower mn))) := by
  induction fs generalizing props with
  | nil => cases hf
  | cons g gs ih =>
    rw [List.map_cons] at hnd
    have hnd' := List.nodup_cons.mp hnd
    rcases List.mem_cons.mp hf with hf | hf
    · subst hf
      simp only [one2many, if_pos ht, hd] at h
      refine o2m_ne_preserved mn gs _ props' _ _ h ?_ ?_
      · exact alookup_dictInsert_self _ _ _
      · intro g2 hg2 hh
        have hname : g2.name = f.name := strAppend_cancel _ _ _ hh
        exact hnd'.1 (hname ▸ List.mem_map_of_mem FieldDecl.name hg2)
    · by_cases hg : g.type = PyType.listOf PyType.int
      · simp only [one2many, if_pos hg] at h
        cases hgd : g.default with
        | missing => rw [hgd] at h; cases h
        | pynone =>
          rw [hgd] at h
          exact ih _ h hf hnd'.2
        | val w =>
          rw [hgd] at h
          exact ih _ h hf hnd'.2
      · simp only [one2many, if_neg hg] at h
        exact ih _ h hf hnd'.2

theorem mff_name (models : List String) (bp : List (String × Bauhaus))
    (f : FieldDecl) (s : UXFieldSpec) (h : make_form_field models bp f = .ok s) :
    s.name = f.name := by
  unfold make_form_field at h
  cases halk : alookup bp f.name with
  | none => simp only [halk] at h; cases h
  | some bh =>
    simp only [halk] at h
    by_cases hfk : pyEndsWith f.name "_id" = true ∧ pyDropRight f.name 3 ∈ models
    · rw [if_pos hfk] at h
      simp only [Except.ok.injEq] at h
      rw [← h]
    · rw [if_neg hfk] at h
      cases hg : getBautype f.type with
      | error e => rw [hg] at h; cases h
      | ok r =>
        rw [hg] at h
        simp only [Except.ok.injEq] at h
        rw [← h]

theorem ff_cons_ok (models : List String) (bp : List (String × Bauhaus))
    (f : FieldDecl) (fs : List FieldDecl) (specs : List UXFieldSpec)
    (h : formFields models bp (f :: fs) = .ok specs)
    (hns : nonSentinel f = true) :
    ∃ s rest, make_form_field models bp f = .ok s ∧
      formFields models bp fs = .ok rest ∧ specs = s :: rest := by
  have hne : ¬ f.type = PyType.listOf PyType.int := by
    simpa [nonSentinel] using hns
  simp only [formFields, if_neg hne] at h
  cases hm : make_form_field models bp f with
  | error e => rw [hm] at h; cases h
  | ok s =>
    rw [hm] at h
    cases hr : formFields models bp fs with
    | error e => rw [hr] at h; cases h
    | ok rest =>
      rw [hr] at h
      simp only [Except.ok.injEq] at h
      exact ⟨s, rest, rfl, rfl, h.symm⟩

theorem ff_names (models : List String) (bp : List (String × Bauhaus))
    (fields : List FieldDecl) (specs : List UXFieldSpec)
    (h : formFields models bp fields = .ok specs) :
    specs.map UXFieldSpec.name = (fields.filter nonSentinel).map FieldDecl.name := by
  induction fields generalizing specs with
  | nil =>
    simp only [formFields, Except.ok.injEq] at h
    rw [← h]
    rfl
  | cons f fs ih =>
    by_cases hns : nonSentinel f = true
    · obtain ⟨s, rest, hs, hrest, hspecs⟩ := ff_cons_ok models bp f fs specs h hns
      rw [hspecs, List.filter_cons_of_pos hns]
      simp only [List.map_cons]
      rw [mff_name models bp f s hs, ih rest hrest]
    · have hf : f.type = PyType.listOf PyType.int := by
        by_contra hcon
        exact hns (by simp [nonSentinel, hcon])
      simp only [formFields, if_pos hf] at h
      rw [List.filter_cons_of_neg hns]
      exact ih specs h

theorem rm_inv (a : List String) (fo : Bool) (n : String) (m : ModelDecl)
    (bp : List (String × Bauhaus)) (rm : RegisteredModel)
    (h : register_model a fo n m bp = .ok rm) :
    ∃ props, one2many n (capGo a ([], []) bp).2 m.fields = .ok props ∧
      rm = ⟨DbColumn.pk ::
        (if fo then
          dictInsert (dictInsert (capGo a ([], []) bp).1 "_user_id" DbColumn.userIdCol)
            "_mod_datetime" DbColumn.modDatetimeCol
         else (capGo a ([], []) bp).1).map (fun p => p.2), props⟩ := by
  simp only [register_model] at h
  cases h1 : one2many n (capGo a ([], []) bp).2 m.fields with
  | error e => simp only [h1] at h; cases h
  | ok props =>
    simp only [h1] at h
    simp only [Except.ok.injEq] at h
    exact ⟨props, rfl, h.symm⟩

theorem rf_inv (a : List String) (n : String) (m : ModelDecl)
    (bp : List (String × Bauhaus)) (form : List UXFieldSpec)
    (h : register_form a n m bp = .ok form) :
    ∃ specs, formFields a bp m.fields = .ok specs ∧ form = specs ++ [submitSpec n] := by
  unfold register_form at h
  cases h1 : formFields a bp m.fields with
  | error e => rw [h1] at h; cases h
  | ok specs =>
    rw [h1] at h
    simp only [Except.ok.injEq] at h
    exact ⟨specs, rfl, h.symm⟩

theorem synth_inv (a : List String) (fo : Bool) (n : String) (m : ModelDecl)
    (out : SynthOut) (h : synth_model a fo n m = .ok out) :
    ∃ bp, bauprintFields n m.fields = .ok bp ∧
      register_model a fo n m bp = .ok out.rm ∧
      register_form a n m bp = .ok out.form := by
  unfold synth_model at h
  cases h1 : bauprintFields n m.fields with
  | error e => rw [h1] at h; cases h
  | ok bp =>
    simp only [h1] at h
    cases h2 : register_model a fo n m bp with
    | error e => simp only [h2] at h; cases h
    | ok rm =>
      simp only [h2] at h
      cases h3 : register_form a n m bp with
      | error e => simp only [h3] at h; cases h
      | ok form =>
        simp only [h3] at h
        simp only [Except.ok.injEq] at h
        rw [← h]
        exact ⟨bp, rfl, h2, h3⟩


theorem bp_names (mn : String) (fields : List FieldDecl)
    (bp : List (String × Bauhaus)) (h : bauprintFields mn fields = .ok bp) :
    ∀ p ∈ bp, Bauhaus.name p.2 = p.1 := by
  induction fields generalizing bp with
  | nil =>
    simp only [bauprintFields, Except.ok.injEq] at h
    rw [← h]
    intro p hp
    cases hp
  | cons f fs ih =>
    by_cases hk : keepsField f = true
    · obtain ⟨r, rest, _, hrest, hbp⟩ := bp_cons_ok mn f fs bp h hk
      intro p hp
      rw [hbp] at hp
      rcases List.mem_cons.mp hp with hp | hp
      · rw [hp]
      · exact ih rest hrest p hp
    · simp only [bauprintFields, if_neg hk] at h
      exact ih bp h

theorem bp_error_of_mem (mn : String) (fields : List FieldDecl) (f : FieldDecl)
    (hf : f ∈ fields) (hk : keepsField f = true)
    (he : ∃ e0, getBautype f.type = .error e0) :
    ∃ e, bauprintFields mn fields = .error e := by
  induction fields with
  | nil => cases hf
  | cons g gs ih =>
    rcases List.mem_cons.mp hf with hf | hf
    · subst hf
      obtain ⟨e0, he0⟩ := he
      exact ⟨e0, by simp only [bauprintFields, if_pos hk, he0]⟩
    · by_cases hkg : keepsField g = true
      · cases hg : getBautype g.type with
        | error e => exact ⟨e, by simp only [bauprintFields, if_pos hkg, hg]⟩
        | ok r =>
          obtain ⟨e, hrec⟩ := ih hf
          exact ⟨e, by simp only [bauprintFields, if_pos hkg, hg, hrec]⟩
      · obtain ⟨e, hrec⟩ := ih hf
        exact ⟨e, by simp only [bauprintFields, if_neg hkg]; exact hrec⟩

theorem bp_lookup (mn : String) (fields : List FieldDecl)
    (bp : List (String × Bauhaus)) (f : FieldDecl)
    (h : bauprintFields mn fields = .ok bp) (hf : f ∈ fields)
    (hk : keepsField f = true) (hnd : (fields.map FieldDecl.name).Nodup) :
    ∃ r, alookup bp f.name = some (Bauhaus.mk f.name mn r f.default) := by
  induction fields generalizing bp with
  | nil => cases hf
  | cons g gs ih =>
    rw [List.map_cons] at hnd
    have hnd' := List.nodup_cons.mp hnd
    rcases List.mem_cons.mp hf with hf | hf
    · subst hf
      obtain ⟨r, rest, _, _, hbp⟩ := bp_cons_ok mn f gs bp h hk
      refine ⟨r, ?_⟩
      rw [hbp]
      simp [alookup]
    · by_cases hkg : keepsField g = true
      · obtain ⟨r, rest, _, hrest, hbp⟩ := bp_cons_ok mn g gs bp h hkg
        have hne : g.name ≠ f.name := by
          intro hc
          exact hnd'.1 (hc ▸ List.mem_map_of_mem FieldDecl.name hf)
        obtain ⟨r2, hr2⟩ := ih rest hrest hf hnd'.2
        refine ⟨r2, ?_⟩
        rw [hbp]
        simp only [alookup, if_neg hne]
        exact hr2
      · simp only [bauprintFields, if_neg hkg] at h
        exact ih bp h hf hnd'.2

theorem ff_mem (models : List String) (bp : List (String × Bauhaus))
    (fields : List FieldDecl) (specs : List UXFieldSpec) (f : FieldDecl)
    (h : formFields models bp fields = .ok specs)
    (hf : f ∈ fields) (hns : nonSentinel f = true) :
    ∃ s, make_form_field models bp f = .ok s ∧ s ∈ specs := by
  induction fields generalizing specs with
  | nil => cases hf
  | cons g gs ih =>
    rcases List.mem_cons.mp hf with hf | hf
    · subst hf
      obtain ⟨s, rest, hs, _, hspecs⟩ := ff_cons_ok models bp f gs specs h hns
      exact ⟨s, hs, by rw [hspecs]; simp⟩
    · by_cases hnsg : nonSentinel g = true
      · obtain ⟨s, rest, _, hrest, hspecs⟩ := ff_cons_ok models bp g gs specs h hnsg
        obtain ⟨s2, hs2, hmem⟩ := ih rest hrest hf
        exact ⟨s2, hs2, by rw [hspecs]; exact List.mem_cons_of_mem s hmem⟩
      · have hg : g.type = PyType.listOf PyType.int := by
          by_contra hcon
          exact hnsg (by simp [nonSentinel, hcon])
        simp only [formFields, if_pos hg] at h
        exact ih specs h hf

theorem vals_names_eq_keys (l : List (String × DbColumn))
    (h : ∀ p ∈ l, DbColumn.colName p.2 = p.1) :
    (l.map (fun p => p.2)).map DbColumn.colName = l.map Prod.fst := by
  induction l with
  | nil => rfl
  | cons p rest ih =>
    simp only [List.map_cons]
    rw [h p (by simp), ih (fun q hq => h q (by simp [hq]))]

theorem dictInsert_pres_good (l : List (String × DbColumn)) (k : String) (v : DbColumn)
    (hv : DbColumn.colName v = k) (h : ∀ p ∈ l, DbColumn.colName p.2 = p.1) :
    ∀ p ∈ dictInsert l k v, DbColumn.colName p.2 = p.1 := by
  induction l with
  | nil =>
    intro p hp
    simp only [dictInsert, List.mem_singleton] at hp
    rw [hp]
    exact hv
  | cons q rest ih =>
    intro p hp
    by_cases hq : q.1 = k
    · rw [show dictInsert (q :: rest) k v = (k, v) :: rest by simp [dictInsert, hq]] at hp
      rcases List.mem_cons.mp hp with hp | hp
      · rw [hp]; exact hv
      · exact h p (by simp [hp])
    · rw [show dictInsert (q :: rest) k v = q :: dictInsert rest k v by
          simp [dictInsert, hq]] at hp
      rcases List.mem_cons.mp hp with hp | hp
      · rw [hp]; exact h q (by simp)
      · exact ih (fun r hr => h r (by simp [hr])) p hp

theorem dI_filter_inv (l : List (String × DbColumn)) (ns : List String)
    (k : String) (v : DbColumn)
    (hsub : ∀ x ∈ ns, x ∈ l.map Prod.fst)
    (hfil : (l.map Prod.fst).filter (fun c => decide (c ∈ ns)) = ns) :
    (∀ x ∈ ns, x ∈ (dictInsert l k v).map Prod.fst) ∧
    ((dictInsert l k v).map Prod.fst).filter (fun c => decide (c ∈ ns)) = ns := by
  by_cases hk : k ∈ l.map Prod.fst
  · rw [keys_dictInsert_of_mem _ _ _ hk]
    exact ⟨hsub, hfil⟩
  · rw [dictInsert_not_mem _ _ _ hk]
    have hkeys : ((l ++ [(k, v)]).map Prod.fst) = l.map Prod.fst ++ [k] := by simp
    rw [hkeys]
    constructor
    · intro x hx
      exact List.mem_append_left _ (hsub x hx)
    · rw [List.filter_append, hfil]
      have hkns : k ∉ ns := fun hc => hk (hsub k hc)
      simp [hkns]


deriving instance DecidableEq for Except

/- ### Claim theorems -/

/-- C1: for every field synthesized by `Bauhaus.create_db_column`, if the
field name ends in `_id`, the descriptor's `py_type` is exactly `int`, and
the name with the `_id` suffix stripped is a key of the shared namespace,
then the produced column is a foreign key referencing `<prefix>.id`,
nullable iff the default is `None`; otherwise the produced column is a
plain column of the descriptor's storage type, nullable iff the default is
`None`. -/
theorem c1_fk_column_rule (b : Bauhaus) (models : List String) :
    ((pyEndsWith b.name "_id" = true ∧ pyDropRight b.name 3 ∈ models ∧
        b.type.pyTypeOf = some PyType.int) →
      (create_db_column b models).1 =
        DbColumn.fk b.name (pyDropRight b.name 3 ++ ".id")
          (decide (b.default = PyDefault.pynone)))
    ∧ (¬ (pyEndsWith b.name "_id" = true ∧ pyDropRight b.name 3 ∈ models ∧
        b.type.pyTypeOf = some PyType.int) →
      (create_db_column b models).1 =
        DbColumn.plain b.name b.type.dbTypeOf (colDefault b.default)
          (decide (b.default = PyDefault.pynone))) := by
  constructor
  · intro h
    unfold create_db_column
    rw [if_pos h]
  · intro h
    unfold create_db_column
    rw [if_neg h]

/-- C1 witness: `genus_id : int` with `genus` in the namespace and no
default becomes a non-nullable foreign key to `genus.id`; `name : str`
with default `None` becomes a nullable plain string column. -/
theorem c1_witness :
    (create_db_column ⟨"genus_id", "species", Resolved.cls DescKind.integerT,
        PyDefault.missing⟩ ["genus"]).1 = DbColumn.fk "genus_id" "genus.id" false
    ∧ (create_db_column ⟨"name", "species", Resolved.cls DescKind.stringT,
        PyDefault.pynone⟩ ["genus"]).1 =
      DbColumn.plain "name" (some DbType.saString) PyDefault.pynone true := by
  constructor
  · exact ((c1_fk_column_rule ⟨"genus_id", "species", Resolved.cls DescKind.integerT,
      PyDefault.missing⟩ ["genus"]).1 (by decide)).trans (by decide)
  · exact ((c1_fk_column_rule ⟨"name", "species", Resolved.cls DescKind.stringT,
      PyDefault.pynone⟩ ["genus"]).2 (by decide)).trans (by decide)

/-- C3 counterexample: a descriptor with no transforms (the base-class
`False` placeholders, as on `String`/`Integer`) given an internal item
raises the not-callable `TypeError` in `__post_init__` instead of leaving
the storage slot unset — `self.py2db()` is invoked unguarded. -/
theorem c3_counterexample :
    post_init ⟨⟨some (Value.vint 5), none, none⟩, none, none, none, none⟩ =
      .error PropError.notCallable := rfl

/-- C3 amended: when a needed transform is absent, propagation does not
short-circuit: it fails with the not-callable `TypeError` (the `False`
placeholder is called), for each of the three propagation branches.
Callers must test transform truthiness before invoking, as
`AutoBlueprint.db_transform` does. -/
theorem c3_amended (s : BauInst)
    (h : (s.items.py_item.isSome = true ∧ s.items.db_item = none ∧ s.py2db = none)
       ∨ (s.items.py_item = none ∧ s.items.db_item.isSome = true ∧ s.db2py = none)
       ∨ (s.items.py_item = none ∧ s.items.db_item = none ∧
          s.items.ux_item.isSome = true ∧ s.ux2py = none)) :
    post_init s = .error PropError.notCallable := by
  rcases h with ⟨h1, h2, h3⟩ | ⟨h1, h2, h3⟩ | ⟨h1, h2, h3, h4⟩
  · cases hpy : s.items.py_item with
    | none => rw [hpy] at h1; cases h1
    | some v => simp [post_init, hpy, h2, h3, callTransform]
  · cases hdb : s.items.db_item with
    | none => rw [hdb] at h2; cases h2
    | some v => simp [post_init, h1, hdb, h3, callTransform]
  · cases hux : s.items.ux_item with
    | none => rw [hux] at h3; cases h3
    | some v => simp [post_init, h1, h2, hux, h4, callTransform]

/-- C3 witness: the storage-given branch with an absent `db2py`. -/
theorem c3_witness :
    post_init ⟨⟨none, some (Value.vint 2), none⟩, none, none, none, none⟩ =
      .error PropError.notCallable :=
  c3_amended ⟨⟨none, some (Value.vint 2), none⟩, none, none, none, none⟩
    (Or.inr (Or.inl ⟨rfl, rfl, rfl⟩))

/-- C4 counterexample: re-invoking a fully populated descriptor instance
with a fresh internal item does NOT recompute the storage and external
slots: the stale values `2` and `3` are kept, although the
internal-to-storage transform would have produced `10`. -/
theorem c4_counterexample :
    bauCall ⟨⟨some (Value.vint 1), some (Value.vint 2), some (Value.vint 3)⟩,
        some (fun _ => Value.vint 10), some (fun _ => Value.vint 11), none, none⟩
      (some (Value.vint 7)) none none =
      .ok ⟨⟨some (Value.vint 7), some (Value.vint 2), some (Value.vint 3)⟩,
        some (fun _ => Value.vint 10), some (fun _ => Value.vint 11), none, none⟩
    ∧ (Value.vint 2 : Value) ≠ Value.vint 10 := by
  exact ⟨rfl, by decide⟩

/-- C4 amended: re-invoking an instance with a fresh internal item stores
that item but recomputes only the still-unset slots; slots that already
hold a value from an earlier item are retained unchanged (`__post_init__`
fills `None` slots only). -/
theorem c4_amended (s : BauInst) (v : Value)
    (h1 : s.items.db_item.isSome = true) (h2 : s.items.ux_item.isSome = true) :
    bauCall s (some v) none none =
      .ok { s with items := { s.items with py_item := some v } } := by
  cases hdb : s.items.db_item with
  | none => rw [hdb] at h1; cases h1
  | some w =>
    cases hux : s.items.ux_item with
    | none => rw [hux] at h2; cases h2
    | some u => simp [bauCall, post_init, hdb, hux]

/-- C4 witness: the amended retention behavior at a concrete instance. -/
theorem c4_witness :
    bauCall ⟨⟨some (Value.vint 1), some (Value.vint 2), some (Value.vint 3)⟩,
        none, none, none, none⟩ (some (Value.vint 9)) none none =
      .ok ⟨⟨some (Value.vint 9), some (Value.vint 2), some (Value.vint 3)⟩,
        none, none, none, none⟩ :=
  c4_amended ⟨⟨some (Value.vint 1), some (Value.vint 2), some (Value.vint 3)⟩,
      none, none, none, none⟩ (Value.vint 9) rfl rfl

/-- C6: resolving an annotated type unwraps to the base type, resolves its
descriptor and returns an instance parameterized with the original
annotation, keeping the metadata reachable; resolving a non-annotated type
with no registered descriptor that is not a `BauType` subclass fails with
the `KeyError` lookup failure, and `_set_bauprint` for any model holding
such a field aborts instead of skipping the field. -/
theorem c6_type_resolution :
    (∀ (base : PyType) (meta : Meta) (d : DescKind),
      getBautype base = .ok (.cls d) →
        getBautype (.annotated base meta) = .ok (.inst d (.annotated base meta)) ∧
        Resolved.metaOf (.inst d (.annotated base meta)) = meta)
    ∧ (∀ t : PyType, originOf t = none → registryLookup t = none →
        t ≠ PyType.bauSubclass →
        getBautype t = .error .keyErrorType ∧
        ∀ (mn : String) (m : ModelDecl) (f : FieldDecl),
          f ∈ m.fields → f.type = t →
          ∃ e, bauprintFields mn m.fields = .error e) := by
  constructor
  · intro base meta d h
    constructor
    · simp only [getBautype, h]
    · rfl
  · intro t h1 h2 h3
    have hflat : getBautype t = getBautypeFlat t := by
      cases t with
      | listOf t2 => exfalso; simp [originOf] at h1
      | annotated base meta => exfalso; simp [originOf] at h1
      | _ => rfl
    have herr : getBautype t = .error .keyErrorType := by
      rw [hflat]
      unfold getBautypeFlat
      rw [if_neg h3, h2]
    refine ⟨herr, ?_⟩
    intro mn m f hf ht
    have hne : f.type ≠ PyType.listOf PyType.int := by
      rw [ht]
      intro hcon
      rw [hcon] at h1
      simp [originOf] at h1
    have hk : keepsField f = true := by simp [keepsField, hne]
    exact bp_error_of_mem mn m.fields f hf hk ⟨.keyErrorType, by rw [ht]; exact herr⟩

/-- C6 witness: `Annotated[Path, dict(storage_location=species)]` resolves
to a `File` instance carrying the annotation; `bool` (no registered
descriptor) fails resolution and aborts synthesis of a model holding a
`bool` field. -/
theorem c6_witness :
    (getBautype (PyType.annotated PyType.path [("storage_location", "species")]) =
      .ok (.inst DescKind.fileT
        (PyType.annotated PyType.path [("storage_location", "species")])) ∧
     Resolved.metaOf (.inst DescKind.fileT
        (PyType.annotated PyType.path [("storage_location", "species")])) =
       [("storage_location", "species")])
    ∧ getBautype PyType.bool = .error .keyErrorType
    ∧ ∃ e, bauprintFields "species"
        [⟨"flag", PyType.bool, PyDefault.missing⟩] = .error e := by
  refine ⟨?_, ?_, ?_⟩
  · exact c6_type_resolution.1 PyType.path [("storage_location", "species")]
      DescKind.fileT (by decide)
  · exact (c6_type_resolution.2 PyType.bool rfl rfl (by decide)).1
  · exact (c6_type_resolution.2 PyType.bool rfl rfl (by decide)).2 "species"
      ⟨[⟨"flag", PyType.bool, PyDefault.missing⟩]⟩
      ⟨"flag", PyType.bool, PyDefault.missing⟩ (by simp) rfl

/-- C8: for a file field whose metadata has a `storage_location` and whose
internal dict has `content` (and its `filename`), `File.py2db` writes the
base64-decoded bytes to `instance_path/storage_location/<timestamp>-<secured
filename>`, removes `content` from the dict and records the path under
`content_location`; absent a storage location or a `content` entry the
dict is returned unchanged with no write. -/
theorem c8_file_storage :
    (∀ (env : FileEnv) (meta : Meta) (item : List (String × String))
        (sl content fn : String),
      alookup meta "storage_location" = some sl →
      alookup item "content" = some content →
      alookup item "filename" = some fn →
      ∃ r, file_py2db env meta item = .ok r ∧
        r.writes = [(env.instancePath ++ "/" ++ sl ++ "/" ++
          (env.now ++ "-" ++ env.secure fn), env.b64decode content)] ∧
        alookup r.item "content" = none ∧
        alookup r.item "content_location" =
          some (env.instancePath ++ "/" ++ sl ++ "/" ++
            (env.now ++ "-" ++ env.secure fn)))
    ∧ (∀ (env : FileEnv) (meta : Meta) (item : List (String × String)),
        (alookup meta "storage_location" = none ∨ alookup item "content" = none) →
        file_py2db env meta item = .ok ⟨item, []⟩) := by
  constructor
  · intro env meta item sl content fn h1 h2 h3
    refine ⟨⟨dictInsert (item.filter (fun p => decide (p.1 ≠ "content")))
        "content_location" (env.instancePath ++ "/" ++ sl ++ "/" ++
          (env.now ++ "-" ++ env.secure fn)),
      [(env.instancePath ++ "/" ++ sl ++ "/" ++ (env.now ++ "-" ++ env.secure fn),
        env.b64decode content)]⟩, ?_, rfl, ?_, ?_⟩
    · simp only [file_py2db, h1, h2, h3]
    · rw [alookup_dictInsert_ne _ _ _ _ (by decide)]
      exact alookup_filter_ne _ _
    · exact alookup_dictInsert_self _ _ _
  · intro env meta item h
    rcases h with h | h
    · cases h2 : alookup item "content" with
      | none => simp [file_py2db, h, h2]
      | some c => simp [file_py2db, h, h2]
    · cases h1 : alookup meta "storage_location" with
      | none => simp [file_py2db, h, h1]
      | some s2 => simp [file_py2db, h, h1]

/-- C8 witness: a concrete upload dict under metadata
`storage_location=species` with identity stand-ins for the external
base64/sanitizer collaborators. -/
theorem c8_witness :
    ∃ r, file_py2db ⟨"/inst", "20250101-000000", fun s => s, fun s => s⟩
        [("storage_location", "species")]
        [("filename", "x.png"), ("content", "QUJD")] = .ok r ∧
      r.writes = [("/inst/species/20250101-000000-x.png", "QUJD")] ∧
      alookup r.item "content" = none ∧
      alookup r.item "content_location" = some "/inst/species/20250101-000000-x.png" := by
  obtain ⟨r, hr, hw, hc, hl⟩ := c8_file_storage.1
    ⟨"/inst", "20250101-000000", fun s => s, fun s => s⟩
    [("storage_location", "species")]
    [("filename", "x.png"), ("content", "QUJD")]
    "species" "QUJD" "x.png" (by decide) (by decide) (by decide)
  exact ⟨r, hr, hw.trans (by decide), hc, hl.trans (by decide)⟩

/-- C10: a `list[int]` field whose name begins with an underscore is kept
by the `_set_bauprint` filter, passed to `_get_bautype`, which has no
descriptor registered for `list` and raises `KeyError`, so synthesis of
the model aborts with the type-lookup error instead of producing a
relationship or a column. -/
theorem c10_underscore_sentinel (mn : String) (m : ModelDecl) (f : FieldDecl)
    (hf : f ∈ m.fields) (ht : f.type = PyType.listOf PyType.int)
    (hu : pyStartsWith f.name "_" = true) :
    keepsField f = true ∧ getBautype f.type = .error .keyErrorType ∧
    ∃ e, bauprintFields mn m.fields = .error e := by
  have hk : keepsField f = true := by simp [keepsField, hu]
  refine ⟨hk, ?_, ?_⟩
  · rw [ht]; exact getBautype_listOf PyType.int
  · exact bp_error_of_mem mn m.fields f hf hk
      ⟨.keyErrorType, by rw [ht]; exact getBautype_listOf PyType.int⟩

/-- C10 witness: the `_species : list[int]` underscore field. -/
theorem c10_witness :
    keepsField ⟨"_species", PyType.listOf PyType.int, PyDefault.pynone⟩ = true ∧
    getBautype (PyType.listOf PyType.int) = .error .keyErrorType ∧
    ∃ e, bauprintFields "genus"
      [⟨"_species", PyType.listOf PyType.int, PyDefault.pynone⟩] = .error e :=
  c10_underscore_sentinel "genus"
    ⟨[⟨"_species", PyType.listOf PyType.int, PyDefault.pynone⟩]⟩
    ⟨"_species", PyType.listOf PyType.int, PyDefault.pynone⟩ (by simp) rfl (by decide)


/- ### Shared facts for the table/relationship claims -/

/-- The declaration-ordered names of a model's non-sentinel fields. -/
def nonSentinelNames (m : ModelDecl) : List String :=
  (m.fields.filter nonSentinel).map FieldDecl.name

theorem dropLast_append_single {α : Type} (l : List α) (a : α) :
    (l ++ [a]).dropLast = l := by simp

theorem not_mem_nonSentinelNames (m : ModelDecl) (f : FieldDecl)
    (hnd : (m.fields.map FieldDecl.name).Nodup) (hf : f ∈ m.fields)
    (hns : nonSentinel f = false) : f.name ∉ nonSentinelNames m := by
  intro hmem
  unfold nonSentinelNames at hmem
  rw [List.mem_map] at hmem
  obtain ⟨g, hg, hge⟩ := hmem
  rw [List.mem_filter] at hg
  have hgf : g = f := List.inj_on_of_nodup_map hnd hg.1 hf hge
  have h2 := hg.2
  rw [hgf, hns] at h2
  cases h2

theorem cols_keys_spec (allModels : List String) (mn : String) (m : ModelDecl)
    (bp : List (String × Bauhaus)) (hbp : bauprintFields mn m.fields = .ok bp)
    (hnd : (m.fields.map FieldDecl.name).Nodup) :
    (∀ p ∈ (capGo allModels ([], []) bp).1, DbColumn.colName p.2 = p.1) ∧
    ((capGo allModels ([], []) bp).1).map Prod.fst = nonSentinelNames m := by
  have hbpkeys := bp_keys mn m.fields bp hbp
  have hfilter := bp_filter_eq mn m.fields bp hbp
  have hbpnames := bp_names mn m.fields bp hbp
  have hnodupbp : (bp.map Prod.fst).Nodup := by
    rw [hbpkeys, hfilter]
    exact ((List.filter_sublist m.fields).map FieldDecl.name).nodup hnd
  have hkeyscap := capGo_cols allModels bp ([], []) (by intro k hk; simp) hnodupbp
  constructor
  · rw [hkeyscap]
    intro p hp
    simp only [List.nil_append, List.mem_map] at hp
    obtain ⟨q, hq, hpe⟩ := hp
    rw [← hpe]
    simp only
    rw [colName_create]
    exact hbpnames q hq
  · rw [hkeyscap]
    simp only [List.nil_append, List.map_map]
    have hcomp : (Prod.fst ∘ fun p : String × Bauhaus =>
        (p.1, (create_db_column p.2 allModels).1)) = Prod.fst := by
      funext p; rfl
    rw [hcomp, hbpkeys, hfilter]
    rfl

/- ### C2 -/

/-- C2 counterexample: a model whose only field is `_species : list[int] =
None` (sentinel type, underscore name).  The claim says every sentinel
field yields a relationship with back-reference `genus`; instead synthesis
aborts with the `KeyError` type-lookup failure, so no storage columns and
no relationship set are produced at all. -/
theorem c2_counterexample :
    synth_model ["genus"] false "genus"
        ⟨[⟨"_species", PyType.listOf PyType.int, PyDefault.pynone⟩]⟩ =
      .error SynthErr.keyErrorType := by decide

/-- C2 amended: for a model that synthesizes successfully, every sentinel
`list[int]` field whose name does not begin with an underscore and whose
default is `None` is absent from the storage columns after the implicit
primary key, and its one-to-many relationship appears in the model's
property set keyed `<name>_list` with back-reference the owning model's
lowercased name.  (An underscore-named sentinel field instead aborts
synthesis with a type-lookup error; a field with a truthy default has the
default used verbatim in place of the generated relationship.) -/
theorem c2_amended (allModels : List String) (fo : Bool) (mn : String)
    (m : ModelDecl) (out : SynthOut) (f : FieldDecl)
    (hnd : (m.fields.map FieldDecl.name).Nodup)
    (hf : f ∈ m.fields) (ht : f.type = PyType.listOf PyType.int)
    (hu : pyStartsWith f.name "_" = false)
    (hd : f.default = PyDefault.pynone)
    (h : synth_model allModels fo mn m = .ok out) :
    f.name ∉ (out.rm.tableColumns.map DbColumn.colName).drop 1 ∧
    alookup out.rm.props (f.name ++ "_list") =
      some (ModelProp.rel (snakeToCamel f.name) (some (pyLower mn))) := by
  obtain ⟨bp, hbp, hrm, hrf⟩ := synth_inv _ _ _ _ _ h
  obtain ⟨props, ho2m, hrmeq⟩ := rm_inv _ _ _ _ _ _ hrm
  obtain ⟨hgood, kcap2⟩ := cols_keys_spec allModels mn m bp hbp hnd
  have hnsf : nonSentinel f = false := by simp [nonSentinel, ht]
  constructor
  · rw [hrmeq]
    simp only [List.map_cons, List.drop_succ_cons, List.drop_zero]
    cases fo with
    | false =>
      rw [if_neg Bool.false_ne_true]
      rw [vals_names_eq_keys _ hgood, kcap2]
      exact not_mem_nonSentinelNames m f hnd hf hnsf
    | true =>
      rw [if_pos rfl]
      have good2 : ∀ p ∈ dictInsert
          (dictInsert (capGo allModels ([], []) bp).1 "_user_id" DbColumn.userIdCol)
          "_mod_datetime" DbColumn.modDatetimeCol, DbColumn.colName p.2 = p.1 :=
        dictInsert_pres_good _ _ _ rfl (dictInsert_pres_good _ _ _ rfl hgood)
      rw [vals_names_eq_keys _ good2]
      intro hmem
      rcases keys_dictInsert_mem _ _ _ _ hmem with hmem | hmem
      · rcases keys_dictInsert_mem _ _ _ _ hmem with hmem | hmem
        · rw [kcap2] at hmem
          exact not_mem_nonSentinelNames m f hnd hf hnsf hmem
        · rw [hmem] at hu
          exact absurd hu (by decide)
      · rw [hmem] at hu
        exact absurd hu (by decide)
  · rw [hrmeq]
    exact o2m_lookup mn m.fields _ props f ho2m hf ht hd hnd

/-- C2 witness: the `Genus`-style model with a `species : list[int] = None`
field next to a plain `name : str` field. -/
theorem c2_witness :
    "species" ∉ ((SynthOut.rm ⟨⟨[DbColumn.pk,
        DbColumn.plain "name" (some DbType.saString) PyDefault.pynone false],
        [("species_list", ModelProp.rel "Species" (some "genus"))]⟩,
        [⟨"name", "Name", UXKind.widget (some UXType.stringField),
          [Validator.inputRequiredV], PyDefault.pynone⟩,
         submitSpec "genus"]⟩).tableColumns.map DbColumn.colName).drop 1 ∧
    alookup (SynthOut.rm ⟨⟨[DbColumn.pk,
        DbColumn.plain "name" (some DbType.saString) PyDefault.pynone false],
        [("species_list", ModelProp.rel "Species" (some "genus"))]⟩,
        [⟨"name", "Name", UXKind.widget (some UXType.stringField),
          [Validator.inputRequiredV], PyDefault.pynone⟩,
         submitSpec "genus"]⟩).props ("species" ++ "_list") =
      some (ModelProp.rel (snakeToCamel "species") (some (pyLower "genus"))) :=
  c2_amended ["genus", "species"] false "genus"
    ⟨[⟨"name", PyType.str, PyDefault.missing⟩,
      ⟨"species", PyType.listOf PyType.int, PyDefault.pynone⟩]⟩
    ⟨⟨[DbColumn.pk, DbColumn.plain "name" (some DbType.saString) PyDefault.pynone false],
      [("species_list", ModelProp.rel "Species" (some "genus"))]⟩,
      [⟨"name", "Name", UXKind.widget (some UXType.stringField),
        [Validator.inputRequiredV], PyDefault.pynone⟩,
       submitSpec "genus"]⟩
    ⟨"species", PyType.listOf PyType.int, PyDefault.pynone⟩
    (by decide) (by decide) rfl rfl rfl (by decide)

/- ### C5 -/

/-- C5 counterexample: field `stuff : list[int] = None` on model `parent`
whose name `stuff` matches no model in the namespace `[parent]`.  The
claim says the relationship is silently omitted; instead `register_models`
creates it unconditionally: the property set contains `stuff_list` bound
to a relationship targeting the (nonexistent) class `Stuff`. -/
theorem c5_counterexample :
    synth_model ["parent"] false "parent"
        ⟨[⟨"stuff", PyType.listOf PyType.int, PyDefault.pynone⟩]⟩ =
      .ok ⟨⟨[DbColumn.pk], [("stuff_list", ModelProp.rel "Stuff" (some "parent"))]⟩,
           [submitSpec "parent"]⟩ := by decide

/-- C5 amended: the one-to-many loop never consults the namespace: even
when the sentinel field's name matches no model in `all_models`, the
relationship (targeting the camel-cased field name, back-populating the
owner's lowercased name) is still created and stored in the model's
property set; the dangling reference is left for the external ORM mapper
to reject later. -/
theorem c5_amended (allModels : List String) (fo : Bool) (mn : String)
    (m : ModelDecl) (out : SynthOut) (f : FieldDecl)
    (hnd : (m.fields.map FieldDecl.name).Nodup)
    (hf : f ∈ m.fields) (ht : f.type = PyType.listOf PyType.int)
    (hd : f.default = PyDefault.pynone)
    (habsent : f.name ∉ allModels)
    (h : synth_model allModels fo mn m = .ok out) :
    alookup out.rm.props (f.name ++ "_list") =
      some (ModelProp.rel (snakeToCamel f.name) (some (pyLower mn))) := by
  obtain ⟨bp, hbp, hrm, hrf⟩ := synth_inv _ _ _ _ _ h
  obtain ⟨props, ho2m, hrmeq⟩ := rm_inv _ _ _ _ _ _ hrm
  rw [hrmeq]
  exact o2m_lookup mn m.fields _ props f ho2m hf ht hd hnd

/-- C5 witness: the `stuff` field with namespace `[parent]` not containing
`stuff`. -/
theorem c5_witness :
    alookup (SynthOut.rm ⟨⟨[DbColumn.pk],
        [("stuff_list", ModelProp.rel "Stuff" (some "parent"))]⟩,
        [submitSpec "parent"]⟩).props ("stuff" ++ "_list") =
      some (ModelProp.rel (snakeToCamel "stuff") (some (pyLower "parent"))) :=
  c5_amended ["parent"] false "parent"
    ⟨[⟨"stuff", PyType.listOf PyType.int, PyDefault.pynone⟩]⟩
    ⟨⟨[DbColumn.pk], [("stuff_list", ModelProp.rel "Stuff" (some "parent"))]⟩,
      [submitSpec "parent"]⟩
    ⟨"stuff", PyType.listOf PyType.int, PyDefault.pynone⟩
    (by decide) (by decide) rfl rfl (by decide) (by decide)

/- ### C7 -/

/-- C7: for every model that synthesizes successfully, the declaration
order of its fields is preserved both in the storage column order (the
table columns after the implicit primary key, restricted to the model's
non-sentinel field names) and in the form field order (the synthesized
fields before the trailing submit field). -/
theorem c7_order_preserved (allModels : List String) (fo : Bool) (mn : String)
    (m : ModelDecl) (out : SynthOut)
    (hnd : (m.fields.map FieldDecl.name).Nodup)
    (h : synth_model allModels fo mn m = .ok out) :
    ((out.rm.tableColumns.map DbColumn.colName).drop 1).filter
        (fun c => decide (c ∈ nonSentinelNames m)) = nonSentinelNames m ∧
    (out.form.dropLast).map UXFieldSpec.name = nonSentinelNames m := by
  obtain ⟨bp, hbp, hrm, hrf⟩ := synth_inv _ _ _ _ _ h
  obtain ⟨props, ho2m, hrmeq⟩ := rm_inv _ _ _ _ _ _ hrm
  obtain ⟨specs, hff, hformeq⟩ := rf_inv _ _ _ _ _ hrf
  obtain ⟨hgood, kcap2⟩ := cols_keys_spec allModels mn m bp hbp hnd
  constructor
  · rw [hrmeq]
    simp only [List.map_cons, List.drop_succ_cons, List.drop_zero]
    cases fo with
    | false =>
      rw [if_neg Bool.false_ne_true]
      rw [vals_names_eq_keys _ hgood, kcap2]
      apply List.filter_eq_self.mpr
      intro a ha
      simpa using ha
    | true =>
      rw [if_pos rfl]
      have good2 : ∀ p ∈ dictInsert
          (dictInsert (capGo allModels ([], []) bp).1 "_user_id" DbColumn.userIdCol)
          "_mod_datetime" DbColumn.modDatetimeCol, DbColumn.colName p.2 = p.1 :=
        dictInsert_pres_good _ _ _ rfl (dictInsert_pres_good _ _ _ rfl hgood)
      rw [vals_names_eq_keys _ good2]
      have base1 : ∀ x ∈ nonSentinelNames m,
          x ∈ ((capGo allModels ([], []) bp).1).map Prod.fst := by
        rw [kcap2]; exact fun x hx => hx
      have base2 : (((capGo allModels ([], []) bp).1).map Prod.fst).filter
          (fun c => decide (c ∈ nonSentinelNames m)) = nonSentinelNames m := by
        rw [kcap2]
        apply List.filter_eq_self.mpr
        intro a ha
        simpa using ha
      have step1 := dI_filter_inv _ _ "_user_id" DbColumn.userIdCol base1 base2
      have step2 := dI_filter_inv _ _ "_mod_datetime" DbColumn.modDatetimeCol
        step1.1 step1.2
      exact step2.2
  · rw [hformeq, dropLast_append_single]
    rw [ff_names allModels bp m.fields specs hff]
    rfl

/-- C7 witness: the `Genus`-style model (one plain field, one sentinel
field) with the namespace `[genus, species]`. -/
theorem c7_witness :
    (((SynthOut.rm ⟨⟨[DbColumn.pk,
        DbColumn.plain "name" (some DbType.saString) PyDefault.pynone false],
        [("species_list", ModelProp.rel "Species" (some "genus"))]⟩,
        [⟨"name", "Name", UXKind.widget (some UXType.stringField),
          [Validator.inputRequiredV], PyDefault.pynone⟩,
         submitSpec "genus"]⟩).tableColumns.map DbColumn.colName).drop 1).filter
        (fun c => decide (c ∈ nonSentinelNames
          ⟨[⟨"name", PyType.str, PyDefault.missing⟩,
            ⟨"species", PyType.listOf PyType.int, PyDefault.pynone⟩]⟩)) =
      nonSentinelNames ⟨[⟨"name", PyType.str, PyDefault.missing⟩,
        ⟨"species", PyType.listOf PyType.int, PyDefault.pynone⟩]⟩ ∧
    ((SynthOut.form ⟨⟨[DbColumn.pk,
        DbColumn.plain "name" (some DbType.saString) PyDefault.pynone false],
        [("species_list", ModelProp.rel "Species" (some "genus"))]⟩,
        [⟨"name", "Name", UXKind.widget (some UXType.stringField),
          [Validator.inputRequiredV], PyDefault.pynone⟩,
         submitSpec "genus"]⟩).dropLast).map UXFieldSpec.name =
      nonSentinelNames ⟨[⟨"name", PyType.str, PyDefault.missing⟩,
        ⟨"species", PyType.listOf PyType.int, PyDefault.pynone⟩]⟩ :=
  c7_order_preserved ["genus", "species"] false "genus"
    ⟨[⟨"name", PyType.str, PyDefault.missing⟩,
      ⟨"species", PyType.listOf PyType.int, PyDefault.pynone⟩]⟩
    ⟨⟨[DbColumn.pk, DbColumn.plain "name" (some DbType.saString) PyDefault.pynone false],
      [("species_list", ModelProp.rel "Species" (some "genus"))]⟩,
      [⟨"name", "Name", UXKind.widget (some UXType.stringField),
        [Validator.inputRequiredV], PyDefault.pynone⟩,
       submitSpec "genus"]⟩
    (by decide) (by decide)

/- ### C9 -/

/-- C9: for every non-foreign-key, non-sentinel field of a successfully
synthesized model, the form carries a field of the same name whose
validator list is `[Optional()]` iff the field default is explicitly
`None` and `[InputRequired()]` otherwise, and whose `default=` argument is
the field default when one was supplied (with `MISSING` passed as `None`,
which WTForms treats as unset). -/
theorem c9_form_validators (allModels : List String) (fo : Bool) (mn : String)
    (m : ModelDecl) (out : SynthOut) (f : FieldDecl)
    (hnd : (m.fields.map FieldDecl.name).Nodup)
    (hf : f ∈ m.fields)
    (hns : f.type ≠ PyType.listOf PyType.int)
    (hfk : ¬ (pyEndsWith f.name "_id" = true ∧ pyDropRight f.name 3 ∈ allModels))
    (h : synth_model allModels fo mn m = .ok out) :
    ∃ s, s ∈ out.form ∧ s.name = f.name ∧
      s.validators = [if f.default = PyDefault.pynone then Validator.optionalV
                      else Validator.inputRequiredV] ∧
      s.default = pyOrNone f.default := by
  obtain ⟨bp, hbp, hrm, hrf⟩ := synth_inv _ _ _ _ _ h
  obtain ⟨specs, hff, hformeq⟩ := rf_inv _ _ _ _ _ hrf
  have hnsb : nonSentinel f = true := by simp [nonSentinel, hns]
  obtain ⟨s, hmk, hmem⟩ := ff_mem allModels bp m.fields specs f hff hf hnsb
  have hk : keepsField f = true := by simp [keepsField, hns]
  obtain ⟨r0, hlk⟩ := bp_lookup mn m.fields bp f hbp hf hk hnd
  have hname := mff_name allModels bp f s hmk
  have hspec : s.validators = [if f.default = PyDefault.pynone then Validator.optionalV
      else Validator.inputRequiredV] ∧ s.default = pyOrNone f.default := by
    unfold make_form_field at hmk
    simp only [hlk] at hmk
    rw [if_neg hfk] at hmk
    cases hg : getBautype f.type with
    | error e => simp only [hg] at hmk; cases hmk
    | ok r =>
      simp only [hg] at hmk
      have hnb : ¬ f.type = PyType.bool := by
        intro hcon
        rw [hcon, getBautype_bool] at hg
        cases hg
      rw [if_neg hnb] at hmk
      simp only [Except.ok.injEq] at hmk
      rw [← hmk]
      exact ⟨rfl, rfl⟩
  refine ⟨s, ?_, hname, hspec.1, hspec.2⟩
  rw [hformeq]
  exact List.mem_append_left _ hmem

/-- C9 witness: `name : str` with no default on model `genus` yields a
required string field with unset default. -/
theorem c9_witness :
    ∃ s, s ∈ (SynthOut.form ⟨⟨[DbColumn.pk,
        DbColumn.plain "name" (some DbType.saString) PyDefault.pynone false], []⟩,
        [⟨"name", "Name", UXKind.widget (some UXType.stringField),
          [Validator.inputRequiredV], PyDefault.pynone⟩,
         submitSpec "genus"]⟩) ∧ s.name = "name" ∧
      s.validators = [if (PyDefault.missing : PyDefault) = PyDefault.pynone
        then Validator.optionalV else Validator.inputRequiredV] ∧
      s.default = pyOrNone PyDefault.missing :=
  c9_form_validators ["genus"] false "genus"
    ⟨[⟨"name", PyType.str, PyDefault.missing⟩]⟩
    ⟨⟨[DbColumn.pk, DbColumn.plain "name" (some DbType.saString) PyDefault.pynone false],
      []⟩,
      [⟨"name", "Name", UXKind.widget (some UXType.stringField),
        [Validator.inputRequiredV], PyDefault.pynone⟩,
       submitSpec "genus"]⟩
    ⟨"name", PyType.str, PyDefault.missing⟩
    (by decide) (by decide) (by decide) (by decide) (by decide)

end FlaskBauto
